import Mathlib

/- Verification of the peer-lifecycle behaviour of the open-vpn repository.
The definitions below are shallow embeddings of:
  * the `wg-manage` shell script (get_next_ip / update_next_ip / add_client /
    remove_client) concatenated into src/openvpn/ui/app.js, lines 1051-1178;
  * the WireGuard web server src/unnamed/part_000 (POST /api/clients,
    DELETE /api/clients/:name, getServerStatus, GET /api/status);
  * the OpenVPN Express API routes in src/openvpn/ui/app.js
    (POST /api/clients at lines 826-869, DELETE /api/clients/:clientName at
    lines 893-913);
  * formatBytes (src/openvpn/ui/app.js lines 427-433, src/outline/api/server.js
    lines 111-117);
  * the Reconciler of spec.md section 4.3 (no such component exists in the
    source tree; it is modelled from the spec, see `planOps` below). -/

/-- Substring test on character lists: `charsContain pat l` is true iff `pat`
occurs contiguously inside `l`.  Embeds JavaScript `String.prototype.includes`
and the sed `/pattern/` line match used by `wg-manage`. -/
def charsContain (pat : List Char) : List Char → Bool
  | [] => pat.isEmpty
  | c :: rest => List.isPrefixOf pat (c :: rest) || charsContain pat rest

/-- Substring test on strings, `containsSub s pat` = `s.includes(pat)`. -/
def containsSub (s pat : String) : Bool := charsContain pat.data s.data

/-- State of the WireGuard installation managed by `wg-manage`
(src/openvpn/ui/app.js lines 1051-1178): `nextIp` is the NEXT_IP counter kept
in /opt/wireguard-server/config.env (initialised to 2 by the installer, see
src/unnamed/part_004 line 168, and kept present by update_next_ip's sed);
`clients` is the set of per-client config files in CLIENTS_DIR, each recording
the allocated host byte of 10.8.0.x; `conf` is the list of `# Client:`-marked
peer blocks appended to /etc/wireguard/wg0.conf. -/
structure WGState where
  nextIp : Nat
  clients : List (String × Nat)
  conf : List (String × Nat)
deriving DecidableEq

/-- `get_next_ip` (lines 1051-1062): reads the NEXT_IP counter. -/
def get_next_ip (s : WGState) : Nat := s.nextIp

/-- `update_next_ip` (lines 1065-1068): sed-replaces the NEXT_IP line. -/
def update_next_ip (s : WGState) (n : Nat) : WGState := { s with nextIp := n }

/-- The `[[ -f "$CLIENTS_DIR/$client_name.conf" ]]` existence test. -/
def hasClient (s : WGState) (name : String) : Bool :=
  s.clients.any (fun c => c.1 == name)

/-- The sed `/# Client: name/,/^$/d` in remove_client deletes the first conf
block whose marker line matches the pattern; sed patterns match substrings, so
a marker `# Client: ab` is also hit by the pattern built for client `a`. -/
def markerMatches (entry pat : String) : Bool :=
  containsSub ("# Client: " ++ entry) ("# Client: " ++ pat)

/-- Delete the first matching `# Client:` block from the server config. -/
def removeFirstBlock (pat : String) : List (String × Nat) → List (String × Nat)
  | [] => []
  | e :: rest => if markerMatches e.1 pat then rest else e :: removeFirstBlock pat rest

/-- `add_client` (lines 1093-1147): requires a non-empty name, errors if the
client's config file already exists, otherwise allocates the NEXT_IP value,
writes the client file, appends a peer block to wg0.conf and bumps NEXT_IP.
There is no pool bound anywhere: the counter is used verbatim however large. -/
def add_client (client_name : String) (s : WGState) : Except String WGState :=
  if client_name = "" then .error "Client name is required"
  else if hasClient s client_name then
    .error ("Client " ++ client_name ++ " already exists")
  else
    let ip := get_next_ip s
    .ok (update_next_ip
      { s with clients := (client_name, ip) :: s.clients
               conf := s.conf ++ [(client_name, ip)] } (ip + 1))

/-- `remove_client` (lines 1150-1178): requires a non-empty name, errors if the
client's config file does not exist, otherwise removes the client file and the
matching wg0.conf block.  NEXT_IP is not touched: addresses are never freed. -/
def remove_client (client_name : String) (s : WGState) : Except String WGState :=
  if client_name = "" then .error "Client name is required"
  else if !(hasClient s client_name) then
    .error ("Client " ++ client_name ++ " not found")
  else
    .ok { s with clients := s.clients.filter (fun c => !(c.1 == client_name))
                 conf := removeFirstBlock client_name s.conf }

/-- One management operation: `wg-manage add-client` or `wg-manage remove-client`. -/
inductive WgOp where
  | add (name : String)
  | remove (name : String)
deriving DecidableEq

/-- Run one operation; a failing operation leaves the installation unchanged
(both scripts return before mutating anything on their error paths). -/
def wgStep (s : WGState) (op : WgOp) : WGState :=
  match op with
  | .add n =>
    match add_client n s with
    | .ok t => t
    | .error _ => s
  | .remove n =>
    match remove_client n s with
    | .ok t => t
    | .error _ => s

theorem add_client_ok (n : String) (s : WGState) (h1 : ¬ n = "")
    (h2 : hasClient s n = false) :
    add_client n s =
      .ok ⟨s.nextIp + 1, (n, s.nextIp) :: s.clients, s.conf ++ [(n, s.nextIp)]⟩ := by
  simp [add_client, h1, h2, update_next_ip, get_next_ip]

/-- Claim C2 counterexample: with the counter at the last usable host address
(NEXT_IP = 254, exactly one address of 10.8.0.0/24 left) and client a holding
10.8.0.254, adding client b does NOT fail with any pool-exhausted error — it
succeeds (allocating 10.8.0.255) — and after a is removed, re-adding b fails
as a duplicate instead of succeeding with the freed address. -/
theorem freed_address_roundtrip_cex :
    (add_client "b" ⟨255, [("a", 254)], [("a", 254)]⟩).isOk = true ∧
    (add_client "b" ⟨256, [("b", 255)], [("b", 255)]⟩).isOk = false := by decide

/-- Claim C2 amended: the full trace of the scenario on the code.  Adding a
with one address left yields 10.8.0.254; adding b succeeds with 10.8.0.255
(add_client has no PoolExhausted error); removing a frees nothing; re-adding b
fails as a duplicate, and a fresh client c receives 10.8.0.256 — never the
address previously held by a, because the NEXT_IP counter only increases. -/
theorem freed_address_roundtrip_amended :
    add_client "a" ⟨254, [], []⟩ = .ok ⟨255, [("a", 254)], [("a", 254)]⟩ ∧
    add_client "b" ⟨255, [("a", 254)], [("a", 254)]⟩ =
      .ok ⟨256, [("b", 255), ("a", 254)], [("a", 254), ("b", 255)]⟩ ∧
    remove_client "a" ⟨256, [("b", 255), ("a", 254)], [("a", 254), ("b", 255)]⟩ =
      .ok ⟨256, [("b", 255)], [("b", 255)]⟩ ∧
    add_client "b" ⟨256, [("b", 255)], [("b", 255)]⟩ =
      .error "Client b already exists" ∧
    add_client "c" ⟨256, [("b", 255)], [("b", 255)]⟩ =
      .ok ⟨257, [("c", 256), ("b", 255)], [("b", 255), ("c", 256)]⟩ :=
  ⟨rfl, rfl, rfl, rfl, rfl⟩

/-- Claim C6 counterexample: the counter has passed the last usable host
address of 10.8.0.0/24, yet add-client succeeds and allocates 10.8.0.255; no
PoolExhausted error is ever raised. -/
theorem pool_exhausted_cex :
    add_client "x" ⟨255, [], []⟩ = .ok ⟨256, [("x", 255)], [("x", 255)]⟩ := rfl

/-- Claim C6 amended: add_client performs no pool-exhaustion check at all.
For every state whose allocation counter has passed the last usable host
address of 10.8.0.0/24 (255 ≤ nextIp) and every fresh non-empty client name,
the add-client operation still succeeds synchronously, allocating address
10.8.0.nextIp (outside the subnet) and bumping the counter. -/
theorem pool_exhausted_amended (s : WGState) (name : String)
    (_hpool : 255 ≤ s.nextIp) (h1 : ¬ name = "") (h2 : hasClient s name = false) :
    add_client name s =
      .ok ⟨s.nextIp + 1, (name, s.nextIp) :: s.clients, s.conf ++ [(name, s.nextIp)]⟩ :=
  add_client_ok name s h1 h2

/-- Witness for the amended C6 at a concrete exhausted state. -/
theorem pool_exhausted_amended_witness :
    255 ≤ (255 : Nat) ∧
    add_client "x" ⟨255, [], [("q", 3)]⟩ =
      .ok ⟨256, [("x", 255)], [("q", 3), ("x", 255)]⟩ :=
  ⟨by decide,
   pool_exhausted_amended ⟨255, [], [("q", 3)]⟩ "x" (by decide) (by decide) (by decide)⟩

/-- Result of one shell command as seen by `executeCommand` in
src/unnamed/part_000 lines 146-156: `exec` reports an error exactly when the
command exits non-zero (the promise then rejects), otherwise the handler gets
the captured stdout and stderr. -/
structure ExecOutcome where
  exitCode : Nat
  stdout : String
  stderr : String

/-- Response of the POST /api/clients handler of src/unnamed/part_000
(lines 270-303), as distinguishable outcomes. -/
inductive CreateResp where
  | validationFailed
  | clientExists
  | execFailed
  | stderrHadError
  | success
deriving DecidableEq

/-- HTTP status attached to each create outcome: express-validator errors and
the duplicate check answer 400, exec failures and ERROR-bearing stderr answer
500, res.json defaults to 200. -/
def createStatus : CreateResp → Nat
  | .validationFailed => 400
  | .clientExists => 400
  | .execFailed => 500
  | .stderrHadError => 500
  | .success => 200

/-- The route's validator chain `body('name').isAlphanumeric().isLength({min
1, max 50})`: validator.js isAlphanumeric (en-US) accepts exactly non-empty
strings of ASCII letters and digits — underscores and hyphens fail. -/
def validWebName (s : String) : Bool :=
  s != "" && s.data.all (fun c => c.isAlpha || c.isDigit) && s.length ≤ 50

/-- POST /api/clients (src/unnamed/part_000 lines 270-303): reject on
validation errors; 400 'Client already exists' if the client's conf file is
already present; otherwise run `wg-manage add-client name`.  A failing script
exits non-zero, so `executeCommand` rejects and the catch answers 500; on exit
0 the script writes nothing to stderr (all its output goes to stdout), so the
`stderr.includes('ERROR')` branch does not fire and the handler answers
success. -/
def webCreate (name : String) (s : WGState) : CreateResp × WGState :=
  if !(validWebName name) then (.validationFailed, s)
  else if hasClient s name then (.clientExists, s)
  else
    match add_client name s with
    | .error _ => (.execFailed, s)
    | .ok t => (.success, t)

/-- Claim C3 counterexample: client my_phone exists (wg-manage accepts
underscores in names), yet POST /api/clients with that very name is rejected
by the isAlphanumeric validator BEFORE the duplicate check runs: the response
is the validation error, not the 'Client already exists' duplicate error the
claim requires for every existing name. -/
theorem duplicate_name_cex :
    hasClient ⟨3, [("my_phone", 2)], [("my_phone", 2)]⟩ "my_phone" = true ∧
    (webCreate "my_phone" ⟨3, [("my_phone", 2)], [("my_phone", 2)]⟩).1 =
      CreateResp.validationFailed ∧
    CreateResp.validationFailed ≠ CreateResp.clientExists := by decide

/-- Claim C3 amended: for every state and every name already held by an
existing client, the create operation fails with HTTP 400 and leaves all
state unchanged — with 'Client already exists' when the name passes the
route's isAlphanumeric/length validation, and with a validation error instead
when it does not (validation runs first) — and wg-manage add_client itself
errors without mutating anything. -/
theorem duplicate_name_rejected_amended (s : WGState) (name : String)
    (hdup : hasClient s name = true) :
    (webCreate name s).2 = s ∧
    createStatus (webCreate name s).1 = 400 ∧
    (validWebName name = true → (webCreate name s).1 = CreateResp.clientExists) ∧
    (validWebName name = false → (webCreate name s).1 = CreateResp.validationFailed) ∧
    (add_client name s).isOk = false ∧
    wgStep s (WgOp.add name) = s := by
  have hadd : (add_client name s).isOk = false := by
    by_cases h0 : name = ""
    · simp [add_client, h0, Except.isOk, Except.toBool]
    · simp [add_client, h0, hdup, Except.isOk, Except.toBool]
  have hstep : wgStep s (WgOp.add name) = s := by
    cases hres : add_client name s with
    | ok t => rw [hres] at hadd; simp [Except.isOk, Except.toBool] at hadd
    | error e => simp [wgStep, hres]
  by_cases hv : validWebName name = true
  · have e : webCreate name s = (.clientExists, s) := by
      simp [webCreate, hv, hdup]
    rw [e]
    exact ⟨rfl, rfl, fun _ => rfl,
      fun hf => Bool.noConfusion (hf.symm.trans hv), hadd, hstep⟩
  · simp only [Bool.not_eq_true] at hv
    have e : webCreate name s = (.validationFailed, s) := by
      simp [webCreate, hv]
    rw [e]
    exact ⟨rfl, rfl, fun ht => Bool.noConfusion (ht.symm.trans hv),
      fun _ => rfl, hadd, hstep⟩

/-- Witness for the amended C3 at a concrete duplicate. -/
theorem duplicate_name_rejected_amended_witness :
    (webCreate "ab" ⟨3, [("ab", 2)], [("ab", 2)]⟩).2 = ⟨3, [("ab", 2)], [("ab", 2)]⟩ ∧
    createStatus (webCreate "ab" ⟨3, [("ab", 2)], [("ab", 2)]⟩).1 = 400 :=
  ⟨(duplicate_name_rejected_amended ⟨3, [("ab", 2)], [("ab", 2)]⟩ "ab" (by decide)).1,
   (duplicate_name_rejected_amended ⟨3, [("ab", 2)], [("ab", 2)]⟩ "ab" (by decide)).2.1⟩

/-- HTTP status the POST /api/clients handler produces from the wg-manage
subprocess outcome (src/unnamed/part_000 lines 288-302): a non-zero exit
rejects the promise and the catch answers 500; on exit zero, a truthy stderr
containing 'ERROR' answers 500; otherwise res.json answers 200. -/
def wgAddHandlerStatus (r : ExecOutcome) : Nat :=
  if r.exitCode != 0 then 500
  else if r.stderr != "" && containsSub r.stderr "ERROR" then 500
  else 200

/-- HTTP status the DELETE /api/clients/:name handler produces from the
wg-manage subprocess outcome (src/unnamed/part_000 lines 310-316); the code
is the same check as in the add handler. -/
def wgRemoveHandlerStatus (r : ExecOutcome) : Nat :=
  if r.exitCode != 0 then 500
  else if r.stderr != "" && containsSub r.stderr "ERROR" then 500
  else 200

theorem containsSub_ne_empty (s : String) (h : containsSub s "ERROR" = true) :
    (s != "") = true := by
  by_cases h0 : s = ""
  · subst h0
    exact absurd h (by decide)
  · simp [h0]

theorem handler_truthiness (r : ExecOutcome) :
    (r.stderr != "" && containsSub r.stderr "ERROR") =
      containsSub r.stderr "ERROR" := by
  by_cases hc : containsSub r.stderr "ERROR" = true
  · simp [hc, containsSub_ne_empty _ hc]
  · simp only [Bool.not_eq_true] at hc
    simp [hc]

theorem wgAddHandlerStatus_spec (r : ExecOutcome) :
    (wgAddHandlerStatus r = 200 ↔
      (r.exitCode = 0 ∧ containsSub r.stderr "ERROR" = false)) ∧
    (wgAddHandlerStatus r = 200 ∨ wgAddHandlerStatus r = 500) := by
  unfold wgAddHandlerStatus
  rw [handler_truthiness]
  by_cases h1 : r.exitCode = 0
  · by_cases h2 : containsSub r.stderr "ERROR" = true
    · simp [h1, h2]
    · simp only [Bool.not_eq_true] at h2
      simp [h1, h2]
  · simp [h1]

/-- Claim C5: the WireGuard web add-client and remove-client handlers respond
success (HTTP 200) exactly when the wg-manage subprocess exits with code zero
and its stderr does not contain the substring 'ERROR'; in every other case
they respond 500. -/
theorem shell_success_predicate (r : ExecOutcome) :
    (wgAddHandlerStatus r = 200 ↔
      (r.exitCode = 0 ∧ containsSub r.stderr "ERROR" = false)) ∧
    (wgRemoveHandlerStatus r = 200 ↔
      (r.exitCode = 0 ∧ containsSub r.stderr "ERROR" = false)) ∧
    (wgAddHandlerStatus r = 200 ∨ wgAddHandlerStatus r = 500) ∧
    (wgRemoveHandlerStatus r = 200 ∨ wgRemoveHandlerStatus r = 500) := by
  have hsame : wgRemoveHandlerStatus r = wgAddHandlerStatus r := rfl
  have h := wgAddHandlerStatus_spec r
  rw [hsame]
  exact ⟨h.1, h.1, h.2, h.2⟩

/-- The OpenVPN create route's validation (src/openvpn/ui/app.js lines
830-832): the clientName must be present and match the regex
`[a-zA-Z0-9_-]+` anchored on both sides. -/
def ovpnValidName (s : String) : Bool :=
  s != "" && s.data.all (fun c => c.isAlpha || c.isDigit || c == '_' || c == '-')

/-- Outcome of the OpenVPN POST /api/clients route (src/openvpn/ui/app.js
lines 826-869) up to the point where shell commands run: either the request
is rejected with an HTTP status before any command is executed, or the listed
commands are handed to exec. -/
inductive OvpnCreateOutcome where
  | rejected (status : Nat)
  | proceeds (commands : List String)
deriving DecidableEq

/-- POST /api/clients: `if (!clientName || !/^[a-zA-Z0-9_-]+$/.test(clientName))`
responds 400 'Invalid client name' and runs nothing; otherwise the easyrsa
build command is executed with the name interpolated. -/
def ovpnCreate : Option String → OvpnCreateOutcome
  | none => .rejected 400
  | some s =>
    if ovpnValidName s then
      .proceeds ["cd /etc/openvpn/easy-rsa && ./easyrsa build-client-full " ++ s ++ " nopass"]
    else .rejected 400

/-- DELETE /api/clients/:clientName (src/openvpn/ui/app.js lines 893-913):
the raw path parameter is spliced verbatim into two shell commands with no
validation or escaping. -/
def ovpnDeleteCommands (clientName : String) : List String :=
  ["cd /etc/openvpn/easy-rsa && ./easyrsa revoke " ++ clientName,
   "cd /etc/openvpn/easy-rsa && ./easyrsa gen-crl"]

/-- Claim C8: validation is asymmetric between create and revoke.  The create
route rejects a missing clientName and every name failing the regex with
HTTP 400 and executes no shell command, while the revoke route, for every
string supplied as the path parameter, builds and executes
`cd /etc/openvpn/easy-rsa && ./easyrsa revoke ` followed by the raw parameter
verbatim. -/
theorem validation_asymmetry :
    ovpnCreate none = .rejected 400 ∧
    (∀ s, ovpnValidName s = false → ovpnCreate (some s) = .rejected 400) ∧
    (∀ s, (ovpnDeleteCommands s).head? =
      some ("cd /etc/openvpn/easy-rsa && ./easyrsa revoke " ++ s)) := by
  refine ⟨rfl, ?_, fun s => rfl⟩
  intro s hs
  simp [ovpnCreate, hs]

/-- Witness for C8: a name with a shell metacharacter fails create validation
yet is spliced verbatim into the revoke command. -/
theorem validation_asymmetry_witness :
    ovpnCreate (some "a;reboot") = .rejected 400 ∧
    (ovpnDeleteCommands "a;reboot").head? =
      some "cd /etc/openvpn/easy-rsa && ./easyrsa revoke a;reboot" :=
  ⟨(validation_asymmetry).2.1 "a;reboot" (by decide),
   (validation_asymmetry).2.2 "a;reboot"⟩

/-- The object getServerStatus resolves with (src/unnamed/part_000
lines 159-175). -/
structure ServerStatus where
  isRunning : Bool
  uptime : String
  peers : Nat
  wgOutput : String
deriving DecidableEq

/-- The catch-all default returned when any shell command fails. -/
def defaultServerStatus : ServerStatus := ⟨false, "Unknown", 0, ""⟩

/-- getServerStatus (src/unnamed/part_000 lines 159-175): runs `wg show wg0`,
`systemctl is-active wg-quick@wg0` and `uptime -p` in order; a command
outcome is `none` when exec reports an error (the await then throws and the
catch returns the default object) and `some (stdout, stderr)` otherwise. -/
def getServerStatus (wg svc up : Option (String × String)) : ServerStatus :=
  match wg with
  | none => defaultServerStatus
  | some wgOut =>
    match svc with
    | none => defaultServerStatus
    | some svcOut =>
      match up with
      | none => defaultServerStatus
      | some upOut =>
        { isRunning := svcOut.1.trim == "active"
          uptime := upOut.1.trim
          peers := ((wgOut.1.splitOn "\n").filter (fun l => l.startsWith "peer:")).length
          wgOutput := wgOut.1 }

/-- GET /api/status (src/unnamed/part_000 lines 250-258): getServerStatus
never throws (it catches internally), so the route always answers 200 with
the resolved object; its own catch branch is dead code. -/
def apiStatusRoute (wg svc up : Option (String × String)) : Nat × ServerStatus :=
  (200, getServerStatus wg svc up)

/-- Claim C9: if any of the three shell commands run by getServerStatus
fails, the function returns exactly the default object
isRunning=false / uptime='Unknown' / peers=0 / wgOutput='' and GET
/api/status responds 200 with that object rather than an error status;
otherwise isRunning is true iff the trimmed systemctl output equals 'active'
and peers equals the number of wg-show output lines starting with 'peer:'. -/
theorem status_errors_masked (wg svc up : Option (String × String)) :
    ((wg = none ∨ svc = none ∨ up = none) →
      getServerStatus wg svc up = defaultServerStatus ∧
      apiStatusRoute wg svc up = (200, defaultServerStatus)) ∧
    (∀ a b c, wg = some a → svc = some b → up = some c →
      ((getServerStatus wg svc up).isRunning = true ↔ b.1.trim = "active") ∧
      (getServerStatus wg svc up).peers =
        ((a.1.splitOn "\n").filter (fun l => l.startsWith "peer:")).length ∧
      (getServerStatus wg svc up).wgOutput = a.1 ∧
      (getServerStatus wg svc up).uptime = c.1.trim ∧
      (apiStatusRoute wg svc up).1 = 200) := by
  constructor
  · intro h
    have e : getServerStatus wg svc up = defaultServerStatus := by
      rcases h with h | h | h
      · simp [getServerStatus, h]
      · cases wg with
        | none => simp [getServerStatus]
        | some a => simp [getServerStatus, h]
      · cases wg with
        | none => simp [getServerStatus]
        | some a =>
          cases svc with
          | none => simp [getServerStatus]
          | some b => simp [getServerStatus, h]
    exact ⟨e, by simp [apiStatusRoute, e]⟩
  · intro a b c ha hb hc
    subst ha; subst hb; subst hc
    refine ⟨?_, rfl, rfl, rfl, rfl⟩
    simp [getServerStatus]

/-- Witness for C9: one failing command yields the default object via the
masking branch, and a successful trio reports the active flag. -/
theorem status_errors_masked_witness :
    getServerStatus none (some ("active", "")) (some ("up 1 day", "")) =
      defaultServerStatus ∧
    ((getServerStatus (some ("peer: x\nfoo", "")) (some ("active\n", ""))
        (some ("up 1 day", ""))).isRunning = true ↔ "active\n".trim = "active") :=
  ⟨((status_errors_masked none (some ("active", "")) (some ("up 1 day", ""))).1
      (Or.inl rfl)).1,
   ((status_errors_masked (some ("peer: x\nfoo", "")) (some ("active\n", ""))
      (some ("up 1 day", ""))).2 ("peer: x\nfoo", "") ("active\n", "")
      ("up 1 day", "") rfl rfl rfl).1⟩

/-- The unit table of formatBytes (src/openvpn/ui/app.js lines 427-433; the
copy at src/outline/api/server.js lines 111-117 computes the same index but
drops the unit from its return value). -/
def formatBytesSizes : List String := ["Bytes", "KB", "MB", "GB", "TB"]

/-- The unit index `Math.floor(Math.log(bytes) / Math.log(1024))` computed by
formatBytes; for a positive integer byte count this floor of the base-1024
logarithm is `Nat.log 1024`. -/
def formatBytesIndex (bytes : Nat) : Nat := Nat.log 1024 bytes

/-- The unit formatBytes appends: `sizes[i]`, which in JavaScript is
`undefined` (here `none`) when the index runs past the table. -/
def formatBytesUnit (bytes : Nat) : Option String :=
  formatBytesSizes[formatBytesIndex bytes]?

/-- Claim C10: for every byte count b with 1 ≤ b < 1024^5 the unit index of
formatBytes is in range for the five-entry table, but for every b ≥ 1024^5
the index is at least 5, past the last element, so the lookup produces no
unit (JavaScript `undefined`). -/
theorem format_bytes_unit_table_overrun (b : Nat) (hb : 1 ≤ b) :
    (b < 1024 ^ 5 → formatBytesIndex b < 5 ∧ (formatBytesUnit b).isSome = true) ∧
    (1024 ^ 5 ≤ b → 5 ≤ formatBytesIndex b ∧ formatBytesUnit b = none) := by
  constructor
  · intro h
    have hidx : formatBytesIndex b < 5 := Nat.log_lt_of_lt_pow (by omega) h
    refine ⟨hidx, ?_⟩
    have hlen : formatBytesIndex b < formatBytesSizes.length := by
      simpa [formatBytesSizes] using hidx
    rw [formatBytesUnit, List.getElem?_eq_getElem hlen]
    rfl
  · intro h
    have hidx : 5 ≤ formatBytesIndex b :=
      (Nat.pow_le_iff_le_log (by norm_num) (by omega)).1 h
    refine ⟨hidx, ?_⟩
    have hlen : formatBytesSizes.length ≤ formatBytesIndex b := by
      simpa [formatBytesSizes] using hidx
    exact List.getElem?_eq_none hlen

/-- Witness for C10: 5 bytes has the in-range unit index 0, while 1024^5
bytes runs off the table. -/
theorem format_bytes_unit_table_overrun_witness :
    (formatBytesUnit 5).isSome = true ∧ formatBytesUnit (1024 ^ 5) = none :=
  ⟨((format_bytes_unit_table_overrun 5 (by norm_num)).1 (by norm_num)).2,
   ((format_bytes_unit_table_overrun (1024 ^ 5) (by norm_num)).2 (le_refl _)).2⟩

/-- Boolean membership used by the Reconciler model, `memb r l` iff `r`
occurs in the list. -/
def memb (r : String) (l : List String) : Bool := l.any (fun x => x == r)

/-- A backend operation emitted by the Reconciler. -/
inductive RecOp where
  | apply (ref : String)
  | remove (ref : String)
deriving DecidableEq

/-- Modelled from the spec: the repository has no Reconciler component (the
spec says so itself); spec.md section 4.3 steps 3-4 — diff desired against
actual state keyed by peerRef, emitting Apply for desired-but-not-actual and
Remove for actual-but-not-desired. -/
def planOps (desired actual : List String) : List RecOp :=
  (desired.filter (fun r => !(memb r actual))).map RecOp.apply ++
  (actual.filter (fun r => !(memb r desired))).map RecOp.remove

/-- Modelled from the spec: one backend operation applied to the actual
state (spec.md sections 4.2-4.3) — an adapter Apply is idempotent (it checks
the peerRef before writing, so no duplicate entries), a Remove deletes the
peer's entries. -/
def applyRecOp (actual : List String) : RecOp → List String
  | .apply r => if memb r actual then actual else actual ++ [r]
  | .remove r => actual.filter (fun x => !(x == r))

/-- Modelled from the spec: spec.md section 4.3 step 5 — apply the planned
operations one peer at a time (every ack succeeding). -/
def runPlan (actual : List String) (ops : List RecOp) : List String :=
  ops.foldl applyRecOp actual

/-- Modelled from the spec: one full reconciliation pass over the backend
state. -/
def reconcile (desired actual : List String) : List String :=
  runPlan actual (planOps desired actual)

theorem memb_iff (r : String) (l : List String) : memb r l = true ↔ r ∈ l := by
  induction l with
  | nil => simp [memb]
  | cons a rest ih =>
    unfold memb at ih ⊢
    simp only [List.any_cons, Bool.or_eq_true, beq_iff_eq, List.mem_cons]
    rw [ih]
    constructor
    · rintro (h | h)
      · exact Or.inl h.symm
      · exact Or.inr h
    · rintro (h | h)
      · exact Or.inl h.symm
      · exact Or.inr h

theorem memb_false_iff (r : String) (l : List String) : memb r l = false ↔ r ∉ l := by
  rw [← Bool.not_eq_true, memb_iff]

theorem mem_runPlan_applies (refs : List String) :
    ∀ (actual : List String) (x : String),
      x ∈ runPlan actual (refs.map RecOp.apply) ↔ (x ∈ actual ∨ x ∈ refs) := by
  induction refs with
  | nil => intro actual x; simp [runPlan]
  | cons r rest ih =>
    intro actual x
    have estep : runPlan actual ((r :: rest).map RecOp.apply) =
        runPlan (applyRecOp actual (RecOp.apply r)) (rest.map RecOp.apply) := by
      simp [runPlan]
    rw [estep]
    by_cases hm : memb r actual = true
    · have har : r ∈ actual := (memb_iff r actual).1 hm
      rw [show applyRecOp actual (RecOp.apply r) = actual from by simp [applyRecOp, hm]]
      rw [ih actual x]
      constructor
      · rintro (h | h)
        · exact Or.inl h
        · exact Or.inr (List.mem_cons_of_mem r h)
      · rintro (h | h)
        · exact Or.inl h
        · rcases List.mem_cons.1 h with rfl | h
          · exact Or.inl har
          · exact Or.inr h
    · simp only [Bool.not_eq_true] at hm
      rw [show applyRecOp actual (RecOp.apply r) = actual ++ [r] from by
        simp [applyRecOp, hm]]
      rw [ih (actual ++ [r]) x]
      simp only [List.mem_append, List.mem_singleton, List.mem_cons]
      tauto

theorem mem_runPlan_removes (refs : List String) :
    ∀ (actual : List String) (x : String),
      x ∈ runPlan actual (refs.map RecOp.remove) ↔ (x ∈ actual ∧ x ∉ refs) := by
  induction refs with
  | nil => intro actual x; simp [runPlan]
  | cons r rest ih =>
    intro actual x
    have estep : runPlan actual ((r :: rest).map RecOp.remove) =
        runPlan (applyRecOp actual (RecOp.remove r)) (rest.map RecOp.remove) := by
      simp [runPlan]
    rw [estep]
    rw [show applyRecOp actual (RecOp.remove r) =
      actual.filter (fun x => !(x == r)) from rfl]
    rw [ih (actual.filter (fun x => !(x == r))) x]
    simp only [List.mem_filter, Bool.not_eq_true', beq_eq_false_iff_ne, ne_eq,
      List.mem_cons]
    tauto

theorem mem_reconcile (desired actual : List String) (x : String) :
    x ∈ reconcile desired actual ↔ x ∈ desired := by
  have esplit : reconcile desired actual =
      runPlan (runPlan actual
        ((desired.filter (fun r => !(memb r actual))).map RecOp.apply))
        ((actual.filter (fun r => !(memb r desired))).map RecOp.remove) := by
    simp [reconcile, planOps, runPlan, List.foldl_append]
  have hf1 : ∀ y, y ∈ desired.filter (fun r => !(memb r actual)) ↔
      (y ∈ desired ∧ y ∉ actual) := by
    intro y
    rw [List.mem_filter, Bool.not_eq_true', memb_false_iff]
  have hf2 : ∀ y, y ∈ actual.filter (fun r => !(memb r desired)) ↔
      (y ∈ actual ∧ y ∉ desired) := by
    intro y
    rw [List.mem_filter, Bool.not_eq_true', memb_false_iff]
  rw [esplit, mem_runPlan_removes, mem_runPlan_applies]
  constructor
  · rintro ⟨h1, h2⟩
    rcases h1 with ha | hd
    · by_contra hnd
      exact h2 ((hf2 x).2 ⟨ha, hnd⟩)
    · exact ((hf1 x).1 hd).1
  · intro hd
    refine ⟨?_, fun hc => ((hf2 x).1 hc).2 hd⟩
    by_cases ha : x ∈ actual
    · exact Or.inl ha
    · exact Or.inr ((hf1 x).2 ⟨hd, ha⟩)

/-- Claim C7: the Reconciler is idempotent — after one reconciliation pass
(with no intervening mutations of the desired state) a second pass computes
an empty plan, i.e. performs zero backend operations (no Apply and no
Remove).  The Reconciler exists only in spec.md section 4.3 and is modelled
from it. -/
theorem reconciler_idempotent (desired actual : List String) :
    planOps desired (reconcile desired actual) = [] := by
  have h1 : desired.filter (fun r => !(memb r (reconcile desired actual))) = [] := by
    rw [List.filter_eq_nil_iff]
    intro a ha
    have hmem : a ∈ reconcile desired actual := (mem_reconcile desired actual a).2 ha
    simp only [Bool.not_eq_true', memb_false_iff]
    exact fun hn => hn hmem
  have h2 : (reconcile desired actual).filter (fun r => !(memb r desired)) = [] := by
    rw [List.filter_eq_nil_iff]
    intro a ha
    have hmem : a ∈ desired := (mem_reconcile desired actual a).1 ha
    simp only [Bool.not_eq_true', memb_false_iff]
    exact fun hn => hn hmem
  simp [planOps, h1, h2]
